import Mathlib

/-!
Shallow embedding of the chip-wagering game backend (mines, crash,
lucky-ladder, blackjack session engines and the signed session store).
Monetary amounts and multipliers are modelled as rationals; `round2`
mirrors the source's `Math.round(value * 100) / 100`.  Randomness is
modelled by passing the sampled value (uniform draw, Bernoulli outcome,
mine positions, shuffled deck) as an explicit argument.  Wall-clock time
in the crash engine is abstracted by the live multiplier value computed
from it, since every branch of the source reads time only through
`getCurrentMultiplier`.
-/

/-- `Math.round(value * 100) / 100` from the source controllers
(JS `Math.round` rounds half toward positive infinity, i.e. is
`⌊x + 1/2⌋`).  Stated with `Rat.floor` so that concrete sessions reduce
by kernel evaluation. -/
def round2 (value : ℚ) : ℚ := ((value * 100 + 1/2).floor : ℚ) / 100

/-! ## Grid-reveal engine (mines.controller.ts) -/

inductive MinesStatus
  | active
  | won
  | lost
  | cashedOut
deriving DecidableEq, Repr

structure MinesSession where
  id : String
  userId : String
  status : MinesStatus
  betAmount : ℚ
  minesCount : ℕ
  minePositions : List ℕ
  revealedCells : List ℕ
  explodedCell : Option ℕ
  multiplier : ℚ
  potentialPayout : ℚ
deriving DecidableEq, Repr

def GRID_SIZE : ℕ := 25

def MINES_HOUSE_EDGE : ℚ := 97/100

/-- `computeNextMultiplier` from mines.controller.ts.  The session passed
in already contains the freshly revealed cell in `revealedCells`. -/
def computeNextMultiplier (session : MinesSession) : ℚ :=
  let revealedSafe : ℚ := session.revealedCells.length
  let totalSafe : ℚ := (GRID_SIZE : ℚ) - session.minesCount
  let remainingCellsBefore : ℚ := (GRID_SIZE : ℚ) - (revealedSafe - 1)
  let remainingSafeBefore : ℚ := totalSafe - (revealedSafe - 1)
  if remainingSafeBefore ≤ 0 ∨ remainingCellsBefore ≤ 0 then
    session.multiplier
  else
    let stepMultiplier := remainingCellsBefore / remainingSafeBefore * MINES_HOUSE_EDGE
    round2 (session.multiplier * stepMultiplier)

/-- `session.revealedCells.push(cellIndex)` followed by a numeric sort:
insert into the sorted revealed list. -/
def sortedInsert (cell : ℕ) : List ℕ → List ℕ
  | [] => [cell]
  | x :: xs => if cell ≤ x then cell :: x :: xs else x :: sortedInsert cell xs

/-- The JSON view produced by `buildResponse` in mines.controller.ts. -/
structure MinesResponse where
  sessionId : String
  status : MinesStatus
  betAmount : ℚ
  minesCount : ℕ
  gridSize : ℕ
  revealedCells : List ℕ
  revealedMines : List ℕ
  explodedCell : Option ℕ
  safeRevealedCount : ℕ
  safeTotal : ℕ
  multiplier : ℚ
  potentialPayout : ℚ
  chipBalance : ℚ
  actionReveal : Bool
  actionCashout : Bool
deriving DecidableEq, Repr

/-- `buildResponse` from mines.controller.ts: mine positions are only
disclosed once the session is no longer ACTIVE. -/
def minesBuildResponse (session : MinesSession) (chipBalance : ℚ) : MinesResponse :=
  let safeTotal := GRID_SIZE - session.minesCount
  let revealedMines := if session.status = .active then [] else session.minePositions
  { sessionId := session.id
    status := session.status
    betAmount := session.betAmount
    minesCount := session.minesCount
    gridSize := GRID_SIZE
    revealedCells := session.revealedCells
    revealedMines := revealedMines
    explodedCell := session.explodedCell
    safeRevealedCount := session.revealedCells.length
    safeTotal := safeTotal
    multiplier := session.multiplier
    potentialPayout := session.potentialPayout
    chipBalance := chipBalance
    actionReveal := session.status = .active
    actionCashout := session.status = .active ∧ session.revealedCells.length > 0 }

inductive MinesErr
  | invalidCell
  | sessionEnded
  | nothingToCashOut
deriving DecidableEq, Repr

/-- The `POST /reveal` handler body of mines.controller.ts, after session
lookup and ownership checks.  Returns the updated session together with
the amount credited to the balance (the auto-credit on WON). -/
def minesReveal (session : MinesSession) (cellIndex : ℕ) :
    Except MinesErr (MinesSession × ℚ) :=
  if GRID_SIZE ≤ cellIndex then .error .invalidCell
  else if session.status ≠ .active then .error .sessionEnded
  else if cellIndex ∈ session.revealedCells then .ok (session, 0)
  else if cellIndex ∈ session.minePositions then
    .ok ({ session with
            status := .lost
            explodedCell := some cellIndex
            potentialPayout := 0 }, 0)
  else
    let session := { session with
                      revealedCells := sortedInsert cellIndex session.revealedCells }
    let session := { session with multiplier := computeNextMultiplier session }
    let session := { session with
                      potentialPayout := round2 (session.betAmount * session.multiplier) }
    let safeTotal := GRID_SIZE - session.minesCount
    if safeTotal ≤ session.revealedCells.length then
      .ok ({ session with status := .won }, session.potentialPayout)
    else
      .ok (session, 0)

/-- The `POST /cashout` handler body of mines.controller.ts. -/
def minesCashout (session : MinesSession) :
    Except MinesErr (MinesSession × ℚ) :=
  if session.status ≠ .active then .error .sessionEnded
  else if session.revealedCells.length = 0 then .error .nothingToCashOut
  else .ok ({ session with status := .cashedOut }, session.potentialPayout)

/-! ## Growth-curve engine (crash.controller.ts)

Wall-clock time enters the source only through
`getCurrentMultiplier(session.startedAt)`; the embedding therefore takes
the live multiplier computed at the instant of the call as an explicit
argument `live`. -/

inductive CrashStatus
  | active
  | lost
  | cashedOut
deriving DecidableEq, Repr

structure CrashSession where
  id : String
  userId : String
  status : CrashStatus
  betAmount : ℚ
  crashAt : ℚ
  autoCashoutAt : Option ℚ
  cashedOutAt : Option ℚ
  payout : ℚ
deriving DecidableEq, Repr

def CRASH_HOUSE_EDGE : ℚ := 99/100

def MAX_CRASH_MULTIPLIER : ℚ := 100

/-- `generateCrashPoint` from crash.controller.ts, as a function of the
uniform draw `u = Math.random()`. -/
def generateCrashPoint (u : ℚ) : ℚ :=
  let raw := CRASH_HOUSE_EDGE / max (1 - u) (1/10000)
  round2 (min MAX_CRASH_MULTIPLIER (max (101/100) raw))

/-- `settleIfNeeded` from crash.controller.ts given the live multiplier at
the call instant.  Returns the updated session and the amount credited to
the balance (nonzero only on the auto-cashout branch).  The JS truthiness
test `session.autoCashoutAt && …` is the `some a` match plus `a ≠ 0`. -/
def crashSettleIfNeeded (session : CrashSession) (live : ℚ) : CrashSession × ℚ :=
  if session.status ≠ .active then (session, 0)
  else
    let autoHit : Bool := match session.autoCashoutAt with
      | some a => a ≠ 0 ∧ a ≤ live ∧ a < session.crashAt
      | none => false
    match session.autoCashoutAt with
    | some a =>
      if autoHit then
        let payout := round2 (session.betAmount * a)
        ({ session with status := .cashedOut, cashedOutAt := some a, payout := payout },
          payout)
      else if session.crashAt ≤ live then
        ({ session with status := .lost, cashedOutAt := none, payout := 0 }, 0)
      else (session, 0)
    | none =>
      if session.crashAt ≤ live then
        ({ session with status := .lost, cashedOutAt := none, payout := 0 }, 0)
      else (session, 0)

/-- The `POST /cashout` handler body of crash.controller.ts (after session
lookup/ownership): runs `settleIfNeeded`, reports a no-longer-active
session, re-checks the crash point, otherwise cashes out at the live
multiplier.  Returns the updated session and the total amount credited. -/
def crashCashout (session : CrashSession) (live : ℚ) : CrashSession × ℚ :=
  let settled := crashSettleIfNeeded session live
  let s1 := settled.1
  if s1.status ≠ .active then settled
  else if s1.crashAt ≤ live then
    ({ s1 with status := .lost, cashedOutAt := none, payout := 0 }, settled.2)
  else
    let payout := round2 (s1.betAmount * live)
    ({ s1 with status := .cashedOut, cashedOutAt := some live, payout := payout },
      settled.2 + payout)

/-- The JSON view produced by `buildResponse` in crash.controller.ts. -/
structure CrashResponse where
  sessionId : String
  status : CrashStatus
  betAmount : ℚ
  currentMultiplier : ℚ
  crashAt : Option ℚ
  autoCashoutAt : Option ℚ
  cashedOutAt : Option ℚ
  payout : ℚ
  chipBalance : ℚ
  actionCashout : Bool
  history : List ℚ
deriving DecidableEq, Repr

/-- `buildResponse` from crash.controller.ts: the crash point is reported
as `null` while the session is ACTIVE, and the current multiplier of an
ACTIVE session is the live one. -/
def crashBuildResponse (session : CrashSession) (live : ℚ) (chipBalance : ℚ)
    (history : List ℚ) : CrashResponse :=
  let currentMultiplier :=
    if session.status = .active then live
    else round2 (session.cashedOutAt.getD session.crashAt)
  { sessionId := session.id
    status := session.status
    betAmount := session.betAmount
    currentMultiplier := currentMultiplier
    crashAt := if session.status = .active then none else some session.crashAt
    autoCashoutAt := session.autoCashoutAt
    cashedOutAt := session.cashedOutAt
    payout := session.payout
    chipBalance := chipBalance
    actionCashout := session.status = .active
    history := history }

/-! ## Step-ladder engine (lucky-ladder.controller.ts)

The Bernoulli trial `Math.random() < breakChance` is modelled by passing
the uniform draw `u` as an argument. -/

inductive LadderStatus
  | active
  | lost
  | cashedOut
  | won
deriving DecidableEq, Repr

structure LadderSession where
  id : String
  userId : String
  status : LadderStatus
  betAmount : ℚ
  totalSteps : ℕ
  currentStep : ℕ
  brokenStep : Option ℕ
  currentMultiplier : ℚ
  potentialPayout : ℚ
deriving DecidableEq, Repr

def BREAK_CHANCES : List ℚ :=
  [14/100, 17/100, 20/100, 24/100, 29/100, 34/100, 40/100, 47/100, 55/100, 64/100]

def STEP_MULTIPLIERS : List ℚ :=
  [112/100, 128/100, 147/100, 172/100, 203/100, 243/100, 295/100, 364/100, 458/100, 590/100]

/-- The session created by `POST /start` of lucky-ladder.controller.ts. -/
def ladderStart (id userId : String) (betAmount : ℚ) : LadderSession :=
  { id := id
    userId := userId
    status := .active
    betAmount := round2 betAmount
    totalSteps := STEP_MULTIPLIERS.length
    currentStep := 0
    brokenStep := none
    currentMultiplier := 1
    potentialPayout := round2 betAmount }

/-- The `POST /climb` handler body of lucky-ladder.controller.ts (after
session lookup/ownership), with the uniform draw `u` of
`Math.random() < breakChance` passed explicitly.  A non-ACTIVE session is
reported back unchanged (no error status).  Returns the updated session
and the amount credited (the auto-credit on WON). -/
def ladderClimb (session : LadderSession) (u : ℚ) : LadderSession × ℚ :=
  if session.status ≠ .active then (session, 0)
  else
    let currentIndex := session.currentStep
    let breakChance := BREAK_CHANCES.getD currentIndex 1
    if u < breakChance then
      ({ session with
          status := .lost
          brokenStep := some (min session.totalSteps (currentIndex + 1))
          potentialPayout := 0 }, 0)
    else
      let nextStep := min session.totalSteps (currentIndex + 1)
      let nextMultiplier := STEP_MULTIPLIERS.getD (nextStep - 1) session.currentMultiplier
      let session := { session with
                        currentStep := nextStep
                        currentMultiplier := nextMultiplier
                        potentialPayout := round2 (session.betAmount * nextMultiplier) }
      if session.totalSteps ≤ session.currentStep then
        ({ session with status := .won }, session.potentialPayout)
      else
        (session, 0)

inductive LadderErr
  | sessionEnded
  | noStepClimbed
deriving DecidableEq, Repr

/-- The `POST /cashout` handler body of lucky-ladder.controller.ts. -/
def ladderCashout (session : LadderSession) :
    Except LadderErr (LadderSession × ℚ) :=
  if session.status ≠ .active then .error .sessionEnded
  else if session.currentStep = 0 then .error .noStepClimbed
  else .ok ({ session with status := .cashedOut }, session.potentialPayout)

/-- `ladderCashout` as a total transition (unchanged session when the
cashout is refused), used to state reachability. -/
def ladderCashoutStep (session : LadderSession) : LadderSession :=
  match ladderCashout session with
  | .ok r => r.1
  | .error _ => session

/-- Sessions reachable through the lucky-ladder engine's operations. -/
inductive LadderReach : LadderSession → Prop
  | start (id userId : String) (betAmount : ℚ) :
      LadderReach (ladderStart id userId betAmount)
  | climb {s : LadderSession} (u : ℚ) :
      LadderReach s → LadderReach (ladderClimb s u).1
  | cashout {s : LadderSession} :
      LadderReach s → LadderReach (ladderCashoutStep s)

/-! ## Signed session store (utils/persistentMap.ts)

The HMAC (node `createHmac("sha256", secret)`) is an external primitive;
the embedding abstracts it as the function `sign` from the serialized
item list to a byte string, and models signatures as byte lists.  A
missing file, blank file or JSON parse failure all leave the map empty in
the source and are collapsed into the `none` payload. -/

structure StoreItem where
  id : String
  payload : String
deriving DecidableEq, Repr

structure PersistedPayload where
  items : List StoreItem
  signature : Option (List ℕ)
deriving DecidableEq, Repr

/-- `isSignatureValid` from persistentMap.ts: the buffer length guard
followed by `timingSafeEqual` amounts to byte-list equality with the
expected HMAC. -/
def isSignatureValid (expected received : List ℕ) : Bool :=
  expected.length = received.length && expected = received

/-- JS `Map.set`: replace the entry with the same key or append. -/
def mapSet (m : List (String × StoreItem)) (k : String) (v : StoreItem) :
    List (String × StoreItem) :=
  match m with
  | [] => [(k, v)]
  | (k', v') :: rest => if k' = k then (k, v) :: rest else (k', v') :: mapSet rest k v

/-- JS `Map.get` on the association-list model. -/
def mapGet (m : List (String × StoreItem)) (k : String) : Option StoreItem :=
  match m with
  | [] => none
  | (k', v') :: rest => if k' = k then some v' else mapGet rest k

/-- `PersistentMap.restore` from persistentMap.ts, parameterized by the
HMAC `sign` of the serialized item list under the server secret.
`none` stands for a missing/blank/unparseable file; a payload whose
`signature` field is not a string yields the empty signature. -/
def restoreStore (sign : List StoreItem → List ℕ) (file : Option PersistedPayload) :
    List (String × StoreItem) :=
  match file with
  | none => []
  | some parsed =>
    let items := parsed.items
    let signature := parsed.signature.getD []
    if signature.isEmpty then []
    else if isSignatureValid (sign items) signature then
      items.foldl (fun m item => mapSet m item.id item) []
    else []

/-! ## Card engine (blackjack.service.ts) -/

inductive CardSuit
  | hearts
  | diamonds
  | clubs
  | spades
deriving DecidableEq, Repr

inductive CardValue
  | n2 | n3 | n4 | n5 | n6 | n7 | n8 | n9 | n10
  | jack | queen | king | ace
deriving DecidableEq, Repr

structure Card where
  suit : CardSuit
  value : CardValue
deriving DecidableEq, Repr

/-- Per-card contribution in `calculateScore`: ace counts 11 first,
face cards 10, the rest their number. -/
def cardBaseValue : CardValue → ℕ
  | .ace => 11
  | .king | .queen | .jack => 10
  | .n2 => 2
  | .n3 => 3
  | .n4 => 4
  | .n5 => 5
  | .n6 => 6
  | .n7 => 7
  | .n8 => 8
  | .n9 => 9
  | .n10 => 10

/-- The `while (score > 21 && aces > 0)` reduction loop of
`calculateScore`, structural on the remaining ace count. -/
def reduceAces : ℕ → ℕ → ℕ
  | score, 0 => score
  | score, aces + 1 => if 21 < score then reduceAces (score - 10) aces else score

/-- `BlackjackService.calculateScore`. -/
def calculateScore (hand : List Card) : ℕ :=
  reduceAces (hand.map (fun c => cardBaseValue c.value)).sum
    (hand.countP (fun c => c.value = .ace))

/-- `remainingDeck.pop()` processed structurally: the source pops from the
end of the deck array, so the dealer loop walks the reversed deck.  The
loop `while (calculateScore(dealerHand) < 17 && remainingDeck.length > 0)`
on the reversed deck. -/
def dealerDrawLoop : List Card → List Card → List Card × List Card
  | rdeck, hand =>
    if calculateScore hand < 17 then
      match rdeck with
      | [] => ([], hand)
      | c :: rest => dealerDrawLoop rest (hand ++ [c])
    else (rdeck, hand)

/-- `BlackjackService.dealerTurn`: draw from the deck's end until the
score reaches 17 or the deck is exhausted; returns (deck, hand). -/
def dealerTurn (deck hand : List Card) : List Card × List Card :=
  let r := dealerDrawLoop deck.reverse hand
  (r.1.reverse, r.2)

/-- `BlackjackService.drawCard`: pop from the end of the deck. -/
def drawCard (deck : List Card) : Option Card × List Card :=
  (deck.getLast?, deck.dropLast)

/-! ## Blackjack session engine (blackjack.controller.ts, current copy
with side bets) -/

inductive BJStatus
  | active
  | playerWon
  | dealerWon
  | push
deriving DecidableEq, Repr

inductive BJAction
  | hit
  | stand
  | double
deriving DecidableEq, Repr

structure PlayerState where
  hands : List (List Card)
  bets : List ℚ
  stood : List Bool
  doubled : List Bool
  actionsTaken : List ℕ
  activeHandIndex : ℤ
  splitAces : Bool
  sideBetOutcome : ℚ
deriving DecidableEq, Repr

structure GameSession where
  id : String
  userId : String
  deck : List Card
  dealerHand : List Card
  status : BJStatus
  betAmount : ℚ
  outcome : ℚ
  playerState : PlayerState
deriving DecidableEq, Repr

/-- The `findIndex` scan of `updateActiveHandIndex`: first hand that is
neither stood nor busted (JS `state.stood[index]` is `undefined`/false
past the end of the parallel array). -/
def findActiveIndexAux (stood : List Bool) : ℕ → List (List Card) → ℤ
  | _, [] => -1
  | i, hand :: rest =>
    if ¬ stood.getD i false ∧ calculateScore hand ≤ 21 then (i : ℤ)
    else findActiveIndexAux stood (i + 1) rest

def findActiveIndex (hands : List (List Card)) (stood : List Bool) : ℤ :=
  findActiveIndexAux stood 0 hands

/-- `updateActiveHandIndex` from blackjack.controller.ts. -/
def updateActiveHandIndex (state : PlayerState) : PlayerState :=
  { state with activeHandIndex := findActiveIndex state.hands state.stood }

def allHandsClosed (state : PlayerState) : Bool := state.activeHandIndex < 0

def allPlayerHandsBusted (state : PlayerState) : Bool :=
  state.hands.all (fun hand => 21 < calculateScore hand)

def totalBet (state : PlayerState) : ℚ := state.bets.sum

/-- `getSplitComparableValue`: ten-value cards compare equal to each
other, every other rank only to itself.  JS returns the number 10 or the
value string; equality of those results is this relation. -/
def splitComparableEq (a b : Card) : Prop :=
  (cardBaseValue a.value = 10 ∧ a.value ≠ .ace ∧ cardBaseValue b.value = 10 ∧ b.value ≠ .ace)
  ∨ a.value = b.value

instance : ∀ a b, Decidable (splitComparableEq a b) := by
  intro a b
  unfold splitComparableEq
  infer_instance

/-- `canSplitPair` from blackjack.controller.ts. -/
def canSplitPair (hand : List Card) : Bool :=
  match hand with
  | [a, b] => splitComparableEq a b
  | _ => false

structure BJSettlement where
  payout : ℚ
  outcome : ℚ
  finalStatus : BJStatus
deriving DecidableEq, Repr

/-- The per-hand accumulation loop (`session.playerState.hands.forEach`)
of `settleSessionIfNeeded`, walking hands and bets in parallel; returns
(payout, outcome). -/
def settleHands (dealerScore : ℕ) : List (List Card) → List ℚ → ℚ × ℚ
  | [], _ => (0, 0)
  | hand :: hands, bets =>
    let handBet := bets.headD 0
    let rest := settleHands dealerScore hands bets.tail
    let playerScore := calculateScore hand
    if 21 < playerScore then (rest.1, rest.2 - handBet)
    else if 21 < dealerScore ∨ dealerScore < playerScore then
      (rest.1 + handBet * 2, rest.2 + handBet)
    else if playerScore = dealerScore then (rest.1 + handBet, rest.2)
    else (rest.1, rest.2 - handBet)

/-- `settleSessionIfNeeded` from blackjack.controller.ts: recompute the
active hand index; while a hand is still open there is nothing to settle;
if every hand busted the dealer does not draw; otherwise the dealer turn
runs and every hand settles against the final dealer score.  Returns the
session (with mutated index, deck and dealer hand) and the settlement. -/
def settleSessionIfNeeded (session : GameSession) :
    GameSession × Option BJSettlement :=
  let state := updateActiveHandIndex session.playerState
  let session := { session with playerState := state }
  if ¬ allHandsClosed state then (session, none)
  else if allPlayerHandsBusted state then
    (session, some ⟨0, -(totalBet state), .dealerWon⟩)
  else
    let dealerResult := dealerTurn session.deck session.dealerHand
    let session := { session with deck := dealerResult.1, dealerHand := dealerResult.2 }
    let dealerScore := calculateScore session.dealerHand
    let acc := settleHands dealerScore session.playerState.hands session.playerState.bets
    let finalStatus : BJStatus :=
      if 0 < acc.2 then .playerWon else if acc.2 < 0 then .dealerWon else .push
    (session, some ⟨acc.1, acc.2, finalStatus⟩)

inductive BJErr
  | gameOver
  | noActiveHand
  | handMissing
  | doubleForbidden
  | splitUnavailable
  | splitNotAllowed
  | insufficientBalance
  | emptyDeck
deriving DecidableEq, Repr

/-- The tail of `applyActionOnSession` after the per-action mutation:
recompute the active index, settle if every hand closed, add the side-bet
outcome, credit any payout.  `debit`/`credit` are balance arithmetic. -/
def bjFinishAction (session : GameSession) (chipBalance : ℚ) : GameSession × ℚ :=
  let state := updateActiveHandIndex session.playerState
  let session := { session with playerState := state }
  let settled := settleSessionIfNeeded session
  match settled.2 with
  | some st =>
    let session := { settled.1 with
                      status := st.finalStatus
                      outcome := st.outcome + settled.1.playerState.sideBetOutcome
                      betAmount := totalBet settled.1.playerState }
    if 0 < st.payout then (session, chipBalance + st.payout) else (session, chipBalance)
  | none =>
    ({ settled.1 with
        betAmount := totalBet settled.1.playerState
        outcome := settled.1.playerState.sideBetOutcome }, chipBalance)

/-- `applyActionOnSession` from blackjack.controller.ts (HIT / STAND /
DOUBLE).  A thrown `HttpError` is the `.error` case carrying the session
object and balance as they stand at the throw (the source mutates the
shared session in place, so state mutated before a throw is kept). -/
def applyActionOnSession (session : GameSession) (action : BJAction)
    (chipBalance : ℚ) :
    Except (BJErr × GameSession × ℚ) (GameSession × ℚ) :=
  if session.status ≠ .active then .error (.gameOver, session, chipBalance)
  else
    let state := updateActiveHandIndex session.playerState
    let session := { session with playerState := state }
    if state.activeHandIndex < 0 then .error (.noActiveHand, session, chipBalance)
    else
      let index := state.activeHandIndex.toNat
      match state.hands.get? index with
      | none => .error (.handMissing, session, chipBalance)
      | some hand =>
        match action with
        | .hit =>
          match drawCard session.deck with
          | (none, _) => .error (.emptyDeck, session, chipBalance)
          | (some card, deck) =>
            let newHand := hand ++ [card]
            let state := { state with
                            hands := state.hands.set index newHand
                            actionsTaken := state.actionsTaken.set index
                              (state.actionsTaken.getD index 0 + 1) }
            let state :=
              if 21 < calculateScore newHand ∨ state.splitAces then
                { state with stood := state.stood.set index true }
              else state
            .ok (bjFinishAction { session with deck := deck, playerState := state }
              chipBalance)
        | .stand =>
          let state := { state with
                          stood := state.stood.set index true
                          actionsTaken := state.actionsTaken.set index
                            (state.actionsTaken.getD index 0 + 1) }
          .ok (bjFinishAction { session with playerState := state } chipBalance)
        | .double =>
          if 0 < state.actionsTaken.getD index 0 ∨ hand.length ≠ 2 ∨ state.splitAces then
            .error (.doubleForbidden, session, chipBalance)
          else
            let extraBet := state.bets.getD index 0
            if chipBalance < extraBet then
              .error (.insufficientBalance, session, chipBalance)
            else
              let chipBalance := chipBalance - extraBet
              let state := { state with
                              bets := state.bets.set index
                                (state.bets.getD index 0 + extraBet)
                              doubled := state.doubled.set index true
                              actionsTaken := state.actionsTaken.set index
                                (state.actionsTaken.getD index 0 + 1) }
              match drawCard session.deck with
              | (none, _) =>
                .error (.emptyDeck, { session with playerState := state }, chipBalance)
              | (some card, deck) =>
                let state := { state with
                                hands := state.hands.set index (hand ++ [card])
                                stood := state.stood.set index true }
                .ok (bjFinishAction { session with deck := deck, playerState := state }
                  chipBalance)

/-- The settlement tail of `applySplitOnSession` (the split path stores
`settlement.outcome` without the side-bet outcome, and `0` otherwise). -/
def bjFinishSplit (session : GameSession) (chipBalance : ℚ) : GameSession × ℚ :=
  let settled := settleSessionIfNeeded session
  match settled.2 with
  | some st =>
    let session := { settled.1 with
                      status := st.finalStatus
                      outcome := st.outcome
                      betAmount := totalBet settled.1.playerState }
    if 0 < st.payout then (session, chipBalance + st.payout) else (session, chipBalance)
  | none =>
    ({ settled.1 with betAmount := totalBet settled.1.playerState, outcome := 0 },
      chipBalance)

/-- `applySplitOnSession` from blackjack.controller.ts. -/
def applySplitOnSession (session : GameSession) (chipBalance : ℚ) :
    Except (BJErr × GameSession × ℚ) (GameSession × ℚ) :=
  if session.status ≠ .active then .error (.gameOver, session, chipBalance)
  else
    let state := updateActiveHandIndex session.playerState
    let session := { session with playerState := state }
    let index := state.activeHandIndex
    if index ≠ 0 ∨ state.hands.length ≠ 1 then
      .error (.splitUnavailable, session, chipBalance)
    else
      match state.hands.get? index.toNat with
      | none => .error (.splitNotAllowed, session, chipBalance)
      | some hand =>
        if ¬ canSplitPair hand ∨ 0 < state.actionsTaken.getD index.toNat 0 then
          .error (.splitNotAllowed, session, chipBalance)
        else
          let splitBet := state.bets.getD index.toNat 0
          if chipBalance < splitBet then
            .error (.insufficientBalance, session, chipBalance)
          else
            let chipBalance := chipBalance - splitBet
            match hand with
            | [first, second] =>
              match drawCard session.deck with
              | (none, _) =>
                .error (.emptyDeck, session, chipBalance)
              | (some card1, deck) =>
                match drawCard deck with
                | (none, _) =>
                  .error (.emptyDeck, { session with deck := deck }, chipBalance)
                | (some card2, deck) =>
                  let splitAces := first.value = .ace
                  let state := { state with
                                  hands := [[first, card1], [second, card2]]
                                  bets := [splitBet, splitBet]
                                  stood := if splitAces then [true, true] else [false, false]
                                  doubled := [false, false]
                                  actionsTaken := if splitAces then [1, 1] else [0, 0]
                                  activeHandIndex := 0
                                  splitAces := splitAces }
                  .ok (bjFinishSplit { session with deck := deck, playerState := state }
                    chipBalance)
            | _ =>
              -- unreachable: canSplitPair forces a two-card hand
              .error (.splitNotAllowed, session, chipBalance)

/-! ## Derived definitions used to state the properties -/

/-- Independent settlement of one non-split-out hand against the final
dealer score: the amount credited for that hand (2× stake on a win, the
stake back on a push, nothing otherwise). -/
def handPayout (dealerScore : ℕ) (hand : List Card) (bet : ℚ) : ℚ :=
  if 21 < calculateScore hand then 0
  else if 21 < dealerScore ∨ dealerScore < calculateScore hand then bet * 2
  else if calculateScore hand = dealerScore then bet
  else 0

/-- Net outcome of one hand against the final dealer score. -/
def handOutcome (dealerScore : ℕ) (hand : List Card) (bet : ℚ) : ℚ :=
  if 21 < calculateScore hand then -bet
  else if 21 < dealerScore ∨ dealerScore < calculateScore hand then bet
  else if calculateScore hand = dealerScore then 0
  else -bet

/-- The session fields named by the blackjack atomicity property:
hands, bets, stood/doubled flags, actions taken, deck, status, stored
outcome and bet amount (everything except the recomputed active-hand
index, which `updateActiveHandIndex` refreshes before the checks). -/
def bjStateCorePreserved (s t : GameSession) : Prop :=
  t.playerState.hands = s.playerState.hands ∧
  t.playerState.bets = s.playerState.bets ∧
  t.playerState.stood = s.playerState.stood ∧
  t.playerState.doubled = s.playerState.doubled ∧
  t.playerState.actionsTaken = s.playerState.actionsTaken ∧
  t.playerState.splitAces = s.playerState.splitAces ∧
  t.deck = s.deck ∧ t.dealerHand = s.dealerHand ∧
  t.status = s.status ∧ t.outcome = s.outcome ∧ t.betAmount = s.betAmount

/-- A blackjack call that fails with an error while preserving the core
session state and the player balance as they were before the call. -/
def failsPreservingState (r : Except (BJErr × GameSession × ℚ) (GameSession × ℚ))
    (s : GameSession) (bal : ℚ) : Prop :=
  ∃ e t, r = .error (e, t, bal) ∧ bjStateCorePreserved s t

/-- Invariant maintained by every lucky-ladder operation. -/
def LadderInv (s : LadderSession) : Prop :=
  s.totalSteps = 10 ∧ s.currentStep ≤ 10 ∧
  (s.status = .won → s.currentStep = 10) ∧
  (s.status = .active → s.currentStep < 10)

/-! Concrete fixtures used by counterexamples and witnesses. -/

def minesFixture : MinesSession :=
  { id := "m1", userId := "u1", status := .active, betAmount := 100, minesCount := 3,
    minePositions := [3, 7, 9], revealedCells := [], explodedCell := none,
    multiplier := 1, potentialPayout := 100 }

def crashAutoFixture : CrashSession :=
  { id := "c1", userId := "u1", status := .active, betAmount := 100, crashAt := 2,
    autoCashoutAt := some (3/2), cashedOutAt := none, payout := 0 }

def crashPlainFixture : CrashSession :=
  { id := "c2", userId := "u1", status := .active, betAmount := 100, crashAt := 2,
    autoCashoutAt := none, cashedOutAt := none, payout := 0 }

def cardKS : Card := ⟨.spades, .king⟩
def cardN9 : Card := ⟨.hearts, .n9⟩
def cardN7 : Card := ⟨.clubs, .n7⟩
def cardN5 : Card := ⟨.diamonds, .n5⟩

def bjClosedFixture : GameSession :=
  { id := "b1", userId := "u1", deck := [cardKS], dealerHand := [cardN7],
    status := .active, betAmount := 100, outcome := 0,
    playerState := { hands := [[cardKS, cardN9]], bets := [100], stood := [true],
                     doubled := [false], actionsTaken := [1], activeHandIndex := -1,
                     splitAces := false, sideBetOutcome := 0 } }

def bjThreeCardFixture : GameSession :=
  { id := "b2", userId := "u1", deck := [cardKS], dealerHand := [cardN7],
    status := .active, betAmount := 100, outcome := 0,
    playerState := { hands := [[cardN5, cardN7, cardN5]], bets := [100], stood := [false],
                     doubled := [false], actionsTaken := [1], activeHandIndex := 0,
                     splitAces := false, sideBetOutcome := 0 } }

def bjDoneFixture : GameSession := { bjClosedFixture with status := .playerWon }

def storeFixtureItems : List StoreItem := [⟨"a", "x"⟩, ⟨"b", "y"⟩]

/-- A concrete stand-in for the HMAC in store witnesses. -/
def storeFixtureSign (items : List StoreItem) : List ℕ := [items.length + 7]

/-! ## Theorems -/

theorem round2_eq_intFloor (v : ℚ) : round2 v = ((⌊v * 100 + 1/2⌋ : ℤ) : ℚ) / 100 := by
  rw [round2, Rat.floor_def', Rat.floor_def]

theorem round2_mono {x y : ℚ} (h : x ≤ y) : round2 x ≤ round2 y := by
  rw [round2_eq_intFloor, round2_eq_intFloor]
  have hf : (⌊x * 100 + 1/2⌋ : ℤ) ≤ ⌊y * 100 + 1/2⌋ := Int.floor_mono (by linarith)
  have hc : ((⌊x * 100 + 1/2⌋ : ℤ) : ℚ) ≤ ((⌊y * 100 + 1/2⌋ : ℤ) : ℚ) := by
    exact_mod_cast hf
  linarith

theorem round2_clamped_range (x : ℚ) (hlo : 101/100 ≤ x) (hhi : x ≤ 100) :
    101/100 ≤ round2 x ∧ round2 x ≤ 100 := by
  have e1 : round2 (101/100) = 101/100 := by norm_num [round2_eq_intFloor]
  have e2 : round2 (100 : ℚ) = 100 := by norm_num [round2_eq_intFloor]
  exact ⟨e1 ▸ round2_mono hlo, e2 ▸ round2_mono hhi⟩

/-- C9: the sampled crash multiplier — house edge over `max(1-u, ε)`,
clamped to [1.01, 100] and rounded to 2 decimals — lies in [1.01, 100]
for every uniform draw `u ∈ [0,1)`. -/
theorem crash_point_sampling_in_range (u : ℚ) (_h0 : 0 ≤ u) (_h1 : u < 1) :
    101/100 ≤ generateCrashPoint u ∧ generateCrashPoint u ≤ 100 := by
  have hx1 : (101/100 : ℚ) ≤
      min MAX_CRASH_MULTIPLIER (max (101/100) (CRASH_HOUSE_EDGE / max (1 - u) (1/10000))) :=
    le_min (by norm_num [MAX_CRASH_MULTIPLIER]) (le_max_left _ _)
  have hx2 : min MAX_CRASH_MULTIPLIER
      (max (101/100) (CRASH_HOUSE_EDGE / max (1 - u) (1/10000))) ≤ 100 :=
    le_trans (min_le_left _ _) (by norm_num [MAX_CRASH_MULTIPLIER])
  have h := round2_clamped_range _ hx1 hx2
  simpa [generateCrashPoint] using h

/-- C9 witness: the bound at the concrete draw `u = 1/2`. -/
theorem crash_point_sampling_in_range_witness :
    (0 : ℚ) ≤ 1/2 ∧ (1/2 : ℚ) < 1 ∧
    (101/100 ≤ generateCrashPoint (1/2) ∧ generateCrashPoint (1/2) ≤ 100) :=
  ⟨by norm_num, by norm_num,
    crash_point_sampling_in_range (1/2) (by norm_num) (by norm_num)⟩

/-- C1 counterexample: revealing mine cell 3 on a fresh ACTIVE session
sets status LOST but leaves the running multiplier at its pre-reveal
value 1 — the source resets `potentialPayout` only, never
`session.multiplier`, so "multiplier reset to 0" is false at this input. -/
theorem mines_mine_reveal_multiplier_not_reset_cex :
    minesFixture.status = .active ∧
    3 ∈ minesFixture.minePositions ∧ 3 ∉ minesFixture.revealedCells ∧
    (∃ s' credit, minesReveal minesFixture 3 = .ok (s', credit) ∧
      s'.status = .lost ∧ s'.multiplier = 1) ∧ (1 : ℚ) ≠ 0 := by
  refine ⟨rfl, by simp [minesFixture], by simp [minesFixture], ?_, by norm_num⟩
  refine ⟨{ minesFixture with
            status := .lost
            explodedCell := some 3
            potentialPayout := 0 }, 0, ?_, rfl, rfl⟩
  norm_num [minesReveal, minesFixture, GRID_SIZE]

/-- C1 (amended): revealing a not-yet-revealed mine cell on an ACTIVE
session sets status LOST, resets the potential payout to 0, records the
exploded cell and discloses all mine positions in the returned view;
the running multiplier keeps its pre-reveal value (it is not reset). -/
theorem mines_mine_reveal_lost (s : MinesSession) (cell : ℕ) (b : ℚ)
    (hcell : cell < GRID_SIZE) (hact : s.status = .active)
    (hnew : cell ∉ s.revealedCells) (hmine : cell ∈ s.minePositions) :
    minesReveal s cell =
      .ok ({ s with
              status := .lost
              explodedCell := some cell
              potentialPayout := 0 }, 0) ∧
    ({ s with
        status := .lost
        explodedCell := some cell
        potentialPayout := 0 } : MinesSession).multiplier = s.multiplier ∧
    (minesBuildResponse
      { s with
          status := .lost
          explodedCell := some cell
          potentialPayout := 0 } b).revealedMines = s.minePositions := by
  have h1 : ¬ GRID_SIZE ≤ cell := Nat.not_le.mpr hcell
  refine ⟨?_, rfl, ?_⟩
  · simp [minesReveal, h1, hact, hnew, hmine]
  · simp [minesBuildResponse]

/-- C1 witness: the amended theorem at the concrete fixture. -/
theorem mines_mine_reveal_lost_witness :
    (3 < GRID_SIZE ∧ minesFixture.status = .active ∧
      3 ∉ minesFixture.revealedCells ∧ 3 ∈ minesFixture.minePositions) ∧
    (minesReveal minesFixture 3 =
      .ok ({ minesFixture with
              status := .lost
              explodedCell := some 3
              potentialPayout := 0 }, 0) ∧
    ({ minesFixture with
        status := .lost
        explodedCell := some 3
        potentialPayout := 0 } : MinesSession).multiplier = minesFixture.multiplier ∧
    (minesBuildResponse
      { minesFixture with
          status := .lost
          explodedCell := some 3
          potentialPayout := 0 } 0).revealedMines = minesFixture.minePositions) :=
  ⟨⟨by norm_num [GRID_SIZE], rfl, by simp [minesFixture], by simp [minesFixture]⟩,
    mines_mine_reveal_lost minesFixture 3 0 (by norm_num [GRID_SIZE]) rfl
      (by simp [minesFixture]) (by simp [minesFixture])⟩

theorem sortedInsert_length (c : ℕ) (l : List ℕ) :
    (sortedInsert c l).length = l.length + 1 := by
  induction l with
  | nil => rfl
  | cons x xs ih =>
    unfold sortedInsert
    split
    · simp
    · simp [ih]

/-- C3: a safe reveal on an ACTIVE session with mine count N multiplies
the running multiplier by `(25 - r + 1) / ((25 - N) - r + 1) * 0.97`
(`r` = safe cells revealed including this one) and rounds to 2 decimals
at this step. -/
theorem mines_safe_reveal_multiplier_step (s : MinesSession) (cell : ℕ)
    (hcell : cell < GRID_SIZE) (hact : s.status = .active)
    (hnew : cell ∉ s.revealedCells) (hsafe : cell ∉ s.minePositions)
    (hroom : s.revealedCells.length + 1 + s.minesCount ≤ GRID_SIZE) :
    ∃ s' credit, minesReveal s cell = .ok (s', credit) ∧
      s'.multiplier =
        round2 (s.multiplier *
          (((GRID_SIZE : ℚ) - (s.revealedCells.length + 1) + 1) /
            (((GRID_SIZE : ℚ) - s.minesCount) - (s.revealedCells.length + 1) + 1) *
            MINES_HOUSE_EDGE)) := by
  have h1 : ¬ GRID_SIZE ≤ cell := Nat.not_le.mpr hcell
  have hlen : (sortedInsert cell s.revealedCells).length = s.revealedCells.length + 1 :=
    sortedInsert_length _ _
  have hcast : ((s.revealedCells.length : ℚ) + 1) + s.minesCount ≤ 25 := by
    have : ((s.revealedCells.length + 1 + s.minesCount : ℕ) : ℚ) ≤ ((GRID_SIZE : ℕ) : ℚ) := by
      exact_mod_cast hroom
    push_cast at this
    norm_num [GRID_SIZE] at this
    linarith
  have hmul :
      computeNextMultiplier { s with revealedCells := sortedInsert cell s.revealedCells } =
        round2 (s.multiplier *
          (((GRID_SIZE : ℚ) - (s.revealedCells.length + 1) + 1) /
            (((GRID_SIZE : ℚ) - s.minesCount) - (s.revealedCells.length + 1) + 1) *
            MINES_HOUSE_EDGE)) := by
    unfold computeNextMultiplier
    simp only [hlen]
    have hroomNat : s.revealedCells.length + 1 + s.minesCount ≤ 25 := by
      simpa [GRID_SIZE] using hroom
    have hg : ¬ (((GRID_SIZE : ℚ) - s.minesCount - (((s.revealedCells.length + 1 : ℕ) : ℚ) - 1) ≤ 0)
        ∨ ((GRID_SIZE : ℚ) - (((s.revealedCells.length + 1 : ℕ) : ℚ) - 1) ≤ 0)) := by
      push_cast
      norm_num [GRID_SIZE]
      constructor
      · linarith
      · omega
    rw [if_neg hg]
    congr 1
    push_cast
    ring
  simp only [minesReveal, h1, hact, hnew, hsafe, ite_false, if_false]
  simp only [ne_eq, not_true_eq_false, if_false, hnew, hsafe]
  split
  · exact ⟨_, _, rfl, hmul⟩
  · exact ⟨_, _, rfl, hmul⟩

/-- C3 witness: the compounding step at the concrete fixture (first safe
reveal of cell 0 with 3 mines). -/
theorem mines_safe_reveal_multiplier_step_witness :
    (0 < GRID_SIZE ∧ minesFixture.status = .active ∧
      0 ∉ minesFixture.revealedCells ∧ 0 ∉ minesFixture.minePositions ∧
      minesFixture.revealedCells.length + 1 + minesFixture.minesCount ≤ GRID_SIZE) ∧
    (∃ s' credit, minesReveal minesFixture 0 = .ok (s', credit) ∧
      s'.multiplier =
        round2 (minesFixture.multiplier *
          (((GRID_SIZE : ℚ) - (minesFixture.revealedCells.length + 1) + 1) /
            (((GRID_SIZE : ℚ) - minesFixture.minesCount) -
              (minesFixture.revealedCells.length + 1) + 1) *
            MINES_HOUSE_EDGE))) :=
  ⟨⟨by norm_num [GRID_SIZE], rfl, by simp [minesFixture], by simp [minesFixture],
     by norm_num [minesFixture, GRID_SIZE]⟩,
    mines_safe_reveal_multiplier_step minesFixture 0 (by norm_num [GRID_SIZE]) rfl
      (by simp [minesFixture]) (by simp [minesFixture])
      (by norm_num [minesFixture, GRID_SIZE])⟩

/-- C10: ACTIVE views are independent of the hidden outcome state — the
mines view does not depend on the mine positions (and reports no mines),
and the crash view does not depend on the sampled crash point (and
reports `crashAt` as null). -/
theorem active_view_noninterference :
    (∀ (s : MinesSession) (mp : List ℕ) (b : ℚ), s.status = .active →
      minesBuildResponse { s with minePositions := mp } b = minesBuildResponse s b) ∧
    (∀ (s : MinesSession) (b : ℚ), s.status = .active →
      (minesBuildResponse s b).revealedMines = []) ∧
    (∀ (c : CrashSession) (x live b : ℚ) (hist : List ℚ), c.status = .active →
      crashBuildResponse { c with crashAt := x } live b hist =
        crashBuildResponse c live b hist) ∧
    (∀ (c : CrashSession) (live b : ℚ) (hist : List ℚ), c.status = .active →
      (crashBuildResponse c live b hist).crashAt = none) := by
  refine ⟨?_, ?_, ?_, ?_⟩
  · intro s mp b hact
    simp [minesBuildResponse, hact]
  · intro s b hact
    simp [minesBuildResponse, hact]
  · intro c x live b hist hact
    simp [crashBuildResponse, hact]
  · intro c live b hist hact
    simp [crashBuildResponse, hact]

/-- C10 witness: the two noninterference equalities at concrete ACTIVE
sessions with different hidden mine positions / crash points. -/
theorem active_view_noninterference_witness :
    minesFixture.status = .active ∧ crashPlainFixture.status = .active ∧
    minesBuildResponse { minesFixture with minePositions := [1, 2, 4] } 500 =
      minesBuildResponse minesFixture 500 ∧
    crashBuildResponse { crashPlainFixture with crashAt := 50 } (3/2) 500 [2, 1] =
      crashBuildResponse crashPlainFixture (3/2) 500 [2, 1] :=
  ⟨rfl, rfl,
    active_view_noninterference.1 minesFixture [1, 2, 4] 500 rfl,
    active_view_noninterference.2.2.1 crashPlainFixture 50 (3/2) 500 [2, 1] rfl⟩

/-- C5 counterexample: with an auto-cashout threshold 1.5 below the crash
point 2, a cashout at live multiplier 2 (which has reached the crash
point) settles CASHED_OUT with a 150 credit — `settleIfNeeded` honours
the threshold retroactively before the crash check, so "always LOST,
never a payout" fails at this input. -/
theorem crash_cashout_past_crash_point_cex :
    crashAutoFixture.status = .active ∧ crashAutoFixture.crashAt ≤ 2 ∧
    (crashCashout crashAutoFixture 2).1.status = .cashedOut ∧
    (crashCashout crashAutoFixture 2).2 = 150 ∧
    ¬ ((crashCashout crashAutoFixture 2).1.status = .lost ∧
       (crashCashout crashAutoFixture 2).1.payout = 0 ∧
       (crashCashout crashAutoFixture 2).2 = 0) := by
  have hc : crashCashout crashAutoFixture 2 =
      ({ crashAutoFixture with
          status := .cashedOut
          cashedOutAt := some (3/2)
          payout := 150 }, 150) := by
    norm_num [crashCashout, crashSettleIfNeeded, crashAutoFixture,
      decide_eq_true_eq, round2_eq_intFloor]
    simp
  refine ⟨rfl, by norm_num [crashAutoFixture], ?_, ?_, ?_⟩
  · rw [hc]
  · rw [hc]
  · rw [hc]
    norm_num

/-- C5 (amended): a cashout requested at a live multiplier that has
reached or passed the crash point resolves the session to LOST with
payout 0 and credits nothing, provided no auto-cashout threshold strictly
below the crash point is set; a set threshold below the crash point is
honoured retroactively and settles CASHED_OUT at the threshold instead. -/
theorem crash_cashout_past_crash_point_lost (s : CrashSession) (live : ℚ)
    (hact : s.status = .active) (hpast : s.crashAt ≤ live)
    (hauto : ∀ a, s.autoCashoutAt = some a → a = 0 ∨ s.crashAt ≤ a) :
    (crashCashout s live).1.status = .lost ∧
    (crashCashout s live).1.payout = 0 ∧
    (crashCashout s live).2 = 0 := by
  have hsettle : crashSettleIfNeeded s live =
      ({ s with status := .lost, cashedOutAt := none, payout := 0 }, 0) := by
    unfold crashSettleIfNeeded
    rw [if_neg (by simp [hact])]
    cases hA : s.autoCashoutAt with
    | none => simp [hpast]
    | some a =>
      have hno : ¬ (a ≠ 0 ∧ a ≤ live ∧ a < s.crashAt) := by
        rcases hauto a hA with h0 | hge
        · simp [h0]
        · rintro ⟨_, _, hlt⟩
          exact absurd hlt (not_lt.mpr hge)
      simp [hno, hpast]
  unfold crashCashout
  rw [hsettle]
  simp

/-- C5 witness: the amended theorem at a concrete session without an
auto-cashout threshold, at live multiplier 2 past the crash point 2. -/
theorem crash_cashout_past_crash_point_lost_witness :
    (crashPlainFixture.status = .active ∧ crashPlainFixture.crashAt ≤ 2 ∧
      (∀ a, crashPlainFixture.autoCashoutAt = some a →
        a = 0 ∨ crashPlainFixture.crashAt ≤ a)) ∧
    ((crashCashout crashPlainFixture 2).1.status = .lost ∧
     (crashCashout crashPlainFixture 2).1.payout = 0 ∧
     (crashCashout crashPlainFixture 2).2 = 0) :=
  ⟨⟨rfl, by norm_num [crashPlainFixture], by intro a h; simp [crashPlainFixture] at h⟩,
    crash_cashout_past_crash_point_lost crashPlainFixture 2 rfl
      (by norm_num [crashPlainFixture])
      (by intro a h; simp [crashPlainFixture] at h)⟩

theorem mapGet_mapSet_self (m : List (String × StoreItem)) (k : String) (v : StoreItem) :
    mapGet (mapSet m k v) k = some v := by
  induction m with
  | nil => simp [mapSet, mapGet]
  | cons kv rest ih =>
    obtain ⟨k0, v0⟩ := kv
    unfold mapSet
    by_cases h : k0 = k
    · simp [h, mapGet]
    · simp [h, mapGet, ih]

theorem mapGet_mapSet_ne_none (m : List (String × StoreItem)) (k j : String)
    (v : StoreItem) (h : mapGet m k ≠ none) : mapGet (mapSet m j v) k ≠ none := by
  induction m with
  | nil => simp [mapGet] at h
  | cons kv rest ih =>
    obtain ⟨a, w⟩ := kv
    unfold mapGet at h
    show mapGet (mapSet ((a, w) :: rest) j v) k ≠ none
    unfold mapSet
    by_cases haj : a = j
    · rw [if_pos haj]
      unfold mapGet
      by_cases hjk : j = k
      · simp [hjk]
      · rw [if_neg hjk]
        rw [if_neg (haj ▸ hjk : ¬ a = k)] at h
        exact h
    · rw [if_neg haj]
      unfold mapGet
      by_cases hak : a = k
      · simp [hak]
      · rw [if_neg hak]
        rw [if_neg hak] at h
        exact ih h

theorem mapGet_foldl_mapSet_ne_none (items : List StoreItem)
    (m : List (String × StoreItem)) (k : String) (h : mapGet m k ≠ none) :
    mapGet (items.foldl (fun acc item => mapSet acc item.id item) m) k ≠ none := by
  induction items generalizing m with
  | nil => simpa using h
  | cons it rest ih =>
    simp only [List.foldl_cons]
    exact ih _ (mapGet_mapSet_ne_none m k it.id it h)

theorem mapGet_foldl_mapSet_mem (items : List StoreItem)
    (m : List (String × StoreItem)) :
    ∀ item ∈ items,
      mapGet (items.foldl (fun acc item => mapSet acc item.id item) m) item.id ≠ none := by
  induction items generalizing m with
  | nil => simp
  | cons it rest ih =>
    intro x hx
    simp only [List.foldl_cons]
    rcases List.mem_cons.mp hx with hx | hx
    · subst hx
      exact mapGet_foldl_mapSet_ne_none rest _ x.id
        (by simp [mapGet_mapSet_self])
    · exact ih _ x hx

theorem isSignatureValid_iff (expected received : List ℕ) :
    isSignatureValid expected received = true ↔ expected = received := by
  unfold isSignatureValid
  simp only [Bool.and_eq_true, decide_eq_true_eq]
  constructor
  · exact fun h => h.2
  · intro h
    exact ⟨by rw [h], h⟩

/-- C8: restoring the signed session store from a file whose signature is
missing, empty, or different from the HMAC of the serialized item list
yields an empty map; only a validly signed file populates the map (every
persisted item is then retrievable by its id). -/
theorem store_restore_rejects_bad_signature :
    ∀ (sign : List StoreItem → List ℕ) (p : PersistedPayload),
      ((p.signature = none ∨ p.signature = some [] ∨
        (∀ sig, p.signature = some sig → sig ≠ sign p.items)) →
        restoreStore sign (some p) = []) ∧
      (restoreStore sign none = []) ∧
      (restoreStore sign (some p) ≠ [] → p.signature = some (sign p.items)) ∧
      (p.signature = some (sign p.items) → sign p.items ≠ [] →
        ∀ item ∈ p.items, mapGet (restoreStore sign (some p)) item.id ≠ none) := by
  intro sign p
  refine ⟨?_, rfl, ?_, ?_⟩
  · intro hbad
    obtain ⟨items, psig⟩ := p
    cases psig with
    | none => simp [restoreStore]
    | some sig =>
      simp only at hbad
      rcases hbad with hnone | hempty | hdiff
      · cases hnone
      · obtain rfl : sig = [] := Option.some.inj hempty
        simp [restoreStore]
      · have hne := hdiff sig rfl
        by_cases he : sig = []
        · simp [restoreStore, he]
        · have hval : ¬ isSignatureValid (sign items) sig = true := by
            intro hv
            exact hne ((isSignatureValid_iff _ _).mp hv).symm
        
          simp [restoreStore, List.isEmpty_iff, he, hval]
  · intro hne
    obtain ⟨items, psig⟩ := p
    simp only
    cases psig with
    | none =>
      simp [restoreStore] at hne
    | some sig =>
      by_cases he : sig = []
      · simp [restoreStore, he] at hne
      · by_cases hv : isSignatureValid (sign items) sig = true
        · rw [((isSignatureValid_iff _ _).mp hv)]
        · simp [restoreStore, List.isEmpty_iff, he, hv] at hne
  · intro hsig hne item hitem
    obtain ⟨items, psig⟩ := p
    simp only at hsig hne hitem ⊢
    subst hsig
    have hres : restoreStore sign (some ⟨items, some (sign items)⟩) =
        items.foldl (fun acc it => mapSet acc it.id it) [] := by
      simp [restoreStore, isSignatureValid, List.isEmpty_iff, hne]
    rw [hres]
    exact mapGet_foldl_mapSet_mem items [] item hitem

/-- C8 witness: a wrong signature and a missing signature are discarded
(empty map), and the valid signature makes fixture item "a" retrievable,
at a concrete sign function. -/
theorem store_restore_rejects_bad_signature_witness :
    restoreStore storeFixtureSign (some ⟨storeFixtureItems, some [5]⟩) = [] ∧
    restoreStore storeFixtureSign (some ⟨storeFixtureItems, none⟩) = [] ∧
    mapGet (restoreStore storeFixtureSign
      (some ⟨storeFixtureItems, some (storeFixtureSign storeFixtureItems)⟩))
      (StoreItem.mk "a" "x").id ≠ none := by
  refine ⟨?_, ?_, ?_⟩
  · exact (store_restore_rejects_bad_signature storeFixtureSign
      ⟨storeFixtureItems, some [5]⟩).1
      (Or.inr (Or.inr (by
        intro sig hs hEq
        cases hs
        simp [storeFixtureSign, storeFixtureItems] at hEq)))
  · exact (store_restore_rejects_bad_signature storeFixtureSign
      ⟨storeFixtureItems, none⟩).1 (Or.inl rfl)
  · exact (store_restore_rejects_bad_signature storeFixtureSign
      ⟨storeFixtureItems, some (storeFixtureSign storeFixtureItems)⟩).2.2.2
      rfl (by simp [storeFixtureSign]) ⟨"a", "x"⟩ (by simp [storeFixtureItems])

theorem ladder_inv_of_reach (s : LadderSession) (h : LadderReach s) : LadderInv s := by
  induction h with
  | start id userId betAmount =>
    refine ⟨rfl, by norm_num [ladderStart], ?_, ?_⟩
    · intro hw
      exact absurd hw (by simp [ladderStart])
    · intro _
      norm_num [ladderStart]
  | @climb s u hs ih =>
    obtain ⟨htot, hle, hwon, hactlt⟩ := ih
    unfold ladderClimb
    by_cases hact : s.status ≠ LadderStatus.active
    · rw [if_pos hact]
      exact ⟨htot, hle, hwon, hactlt⟩
    · rw [if_neg hact]
      push_neg at hact
      have hlt := hactlt hact
      by_cases hbr : u < BREAK_CHANCES.getD s.currentStep 1
      · rw [if_pos hbr]
        refine ⟨htot, hle, ?_, ?_⟩
        · intro hw
          exact absurd hw (by simp)
        · intro ha
          exact absurd ha (by simp)
      · rw [if_neg hbr]
        have hmin : min s.totalSteps (s.currentStep + 1) = s.currentStep + 1 := by
          omega
        by_cases hfin : s.totalSteps ≤ min s.totalSteps (s.currentStep + 1)
        · rw [if_pos hfin]
          refine ⟨htot, by simp [hmin]; omega, ?_, ?_⟩
          · intro _
            simp [hmin]
            omega
          · intro ha
            exact absurd ha (by simp)
        · rw [if_neg hfin]
          refine ⟨htot, by simp [hmin]; omega, ?_, ?_⟩
          · intro hw
            simp only at hw
            rw [hact] at hw
            cases hw
          · intro _
            simp [hmin]
            omega
  | @cashout s hs ih =>
    obtain ⟨htot, hle, hwon, hactlt⟩ := ih
    unfold ladderCashoutStep ladderCashout
    by_cases h1 : s.status ≠ LadderStatus.active
    · rw [if_pos h1]
      exact ⟨htot, hle, hwon, hactlt⟩
    · rw [if_neg h1]
      by_cases h2 : s.currentStep = 0
      · rw [if_pos h2]
        exact ⟨htot, hle, hwon, hactlt⟩
      · rw [if_neg h2]
        refine ⟨htot, hle, ?_, ?_⟩
        · intro hw
          exact absurd hw (by simp)
        · intro ha
          exact absurd ha (by simp)

/-- C7: on every reachable lucky-ladder session, WON implies the current
step equals the total step count (10); a successful climb advances the
step by exactly one, reaches WON exactly when the final step is reached,
and the WON transition credits the stake times the final step multiplier
(5.9), rounded to 2 decimals. -/
theorem ladder_won_only_at_final_step (s : LadderSession) (hreach : LadderReach s) :
    (s.status = .won → s.currentStep = s.totalSteps) ∧
    (∀ u : ℚ, s.status = .active → ¬ u < BREAK_CHANCES.getD s.currentStep 1 →
      (((ladderClimb s u).1.status = .won ↔ s.currentStep + 1 = s.totalSteps) ∧
       (ladderClimb s u).1.currentStep = s.currentStep + 1 ∧
       (s.currentStep + 1 = s.totalSteps →
         (ladderClimb s u).2 = round2 (s.betAmount * STEP_MULTIPLIERS.getD 9 1)))) := by
  obtain ⟨htot, hle, hwon, hactlt⟩ := ladder_inv_of_reach s hreach
  constructor
  · intro hw
    rw [htot]
    exact hwon hw
  · intro u hact hnb
    have hlt := hactlt hact
    unfold ladderClimb
    rw [if_neg (by simp [hact]), if_neg hnb]
    have hmin : min s.totalSteps (s.currentStep + 1) = s.currentStep + 1 := by
      omega
    by_cases hfin : s.currentStep + 1 = s.totalSteps
    · have hcond : s.totalSteps ≤ min s.totalSteps (s.currentStep + 1) := by
        omega
      rw [if_pos hcond]
      refine ⟨by simp [hfin], by simp [hmin], ?_⟩
      intro _
      simp only
      have hidx : min s.totalSteps (s.currentStep + 1) - 1 = 9 := by
        omega
      rw [hidx]
      have : STEP_MULTIPLIERS.getD 9 s.currentMultiplier = STEP_MULTIPLIERS.getD 9 1 := rfl
      rw [this]
    · have hcond : ¬ s.totalSteps ≤ min s.totalSteps (s.currentStep + 1) := by
        omega
      rw [if_neg hcond]
      refine ⟨?_, by simp [hmin], ?_⟩
      · constructor
        · intro hw
          simp only at hw
          rw [hact] at hw
          cases hw
        · intro h
          exact absurd h hfin
      · intro h
        exact absurd h hfin

/-- C7 witness: the theorem at the freshly started session (step 0,
successful climb draw `u = 1`), where WON is not yet reachable. -/
theorem ladder_won_only_at_final_step_witness :
    ((ladderStart "w" "u" 50).status = .active ∧
      ¬ (1 : ℚ) < BREAK_CHANCES.getD (ladderStart "w" "u" 50).currentStep 1) ∧
    ((ladderStart "w" "u" 50).status = .won →
      (ladderStart "w" "u" 50).currentStep = (ladderStart "w" "u" 50).totalSteps) ∧
    ((ladderClimb (ladderStart "w" "u" 50) 1).1.status = .won ↔
      (ladderStart "w" "u" 50).currentStep + 1 = (ladderStart "w" "u" 50).totalSteps) :=
  ⟨⟨rfl, by norm_num [ladderStart, BREAK_CHANCES]⟩,
    (ladder_won_only_at_final_step (ladderStart "w" "u" 50)
      (LadderReach.start "w" "u" 50)).1,
    ((ladder_won_only_at_final_step (ladderStart "w" "u" 50)
      (LadderReach.start "w" "u" 50)).2 1 rfl
      (by norm_num [ladderStart, BREAK_CHANCES])).1⟩

/-- C6: ACTIVE is the only state from which a mutating operation changes
a session.  On a session in any terminal state, mines reveal/cashout and
ladder cashout are rejected with an error, ladder climb and crash cashout
report the session back unchanged, and blackjack actions/split fail with
an error carrying the unchanged session — in every case the session and
the balance are left unchanged and nothing is credited. -/
theorem terminal_sessions_reject_mutations :
    (∀ (s : MinesSession) (cell : ℕ), cell < GRID_SIZE → s.status ≠ .active →
      minesReveal s cell = .error .sessionEnded) ∧
    (∀ s : MinesSession, s.status ≠ .active →
      minesCashout s = .error .sessionEnded) ∧
    (∀ (s : LadderSession) (u : ℚ), s.status ≠ .active →
      ladderClimb s u = (s, 0)) ∧
    (∀ s : LadderSession, s.status ≠ .active →
      ladderCashout s = .error .sessionEnded) ∧
    (∀ (s : CrashSession) (live : ℚ), s.status ≠ .active →
      crashCashout s live = (s, 0)) ∧
    (∀ (s : GameSession) (a : BJAction) (bal : ℚ), s.status ≠ .active →
      applyActionOnSession s a bal = .error (.gameOver, s, bal) ∧
      applySplitOnSession s bal = .error (.gameOver, s, bal)) := by
  refine ⟨?_, ?_, ?_, ?_, ?_, ?_⟩
  · intro s cell hcell hterm
    unfold minesReveal
    rw [if_neg (Nat.not_le.mpr hcell), if_pos hterm]
  · intro s hterm
    unfold minesCashout
    rw [if_pos hterm]
  · intro s u hterm
    unfold ladderClimb
    rw [if_pos hterm]
  · intro s hterm
    unfold ladderCashout
    rw [if_pos hterm]
  · intro s live hterm
    have hsettle : crashSettleIfNeeded s live = (s, 0) := by
      unfold crashSettleIfNeeded
      rw [if_pos hterm]
    unfold crashCashout
    rw [hsettle]
    simp [hterm]
  · intro s a bal hterm
    constructor
    · unfold applyActionOnSession
      rw [if_pos hterm]
    · unfold applySplitOnSession
      rw [if_pos hterm]

/-- C6 witness: the rejections at concrete terminal sessions of each
engine. -/
theorem terminal_sessions_reject_mutations_witness :
    (1 < GRID_SIZE ∧
      ({ minesFixture with status := .lost } : MinesSession).status ≠ .active ∧
      ({ crashPlainFixture with status := .cashedOut } : CrashSession).status ≠ .active ∧
      bjDoneFixture.status ≠ .active) ∧
    minesReveal { minesFixture with status := .lost } 1 = .error .sessionEnded ∧
    crashCashout { crashPlainFixture with status := .cashedOut } 2 =
      ({ crashPlainFixture with status := .cashedOut }, 0) ∧
    ladderClimb { (ladderStart "w" "u" 50) with status := .won } 1 =
      ({ (ladderStart "w" "u" 50) with status := .won }, 0) ∧
    applyActionOnSession bjDoneFixture .hit 500 =
      .error (.gameOver, bjDoneFixture, 500) :=
  ⟨⟨by norm_num [GRID_SIZE], by simp, by simp, by simp [bjDoneFixture, bjClosedFixture]⟩,
    terminal_sessions_reject_mutations.1 { minesFixture with status := .lost } 1
      (by norm_num [GRID_SIZE]) (by simp),
    terminal_sessions_reject_mutations.2.2.2.2.1
      { crashPlainFixture with status := .cashedOut } 2 (by simp),
    terminal_sessions_reject_mutations.2.2.1
      { (ladderStart "w" "u" 50) with status := .won } 1 (by simp [ladderStart]),
    (terminal_sessions_reject_mutations.2.2.2.2.2 bjDoneFixture .hit 500
      (by simp [bjDoneFixture, bjClosedFixture])).1⟩

theorem dealerDrawLoop_final (rdeck hand : List Card) :
    17 ≤ calculateScore (dealerDrawLoop rdeck hand).2 ∨
      (dealerDrawLoop rdeck hand).1 = [] := by
  induction rdeck generalizing hand with
  | nil =>
    unfold dealerDrawLoop
    by_cases h : calculateScore hand < 17
    · rw [if_pos h]
      exact Or.inr rfl
    · rw [if_neg h]
      exact Or.inl (Nat.not_lt.mp h)
  | cons c rest ih =>
    unfold dealerDrawLoop
    by_cases h : calculateScore hand < 17
    · rw [if_pos h]
      exact ih (hand ++ [c])
    · rw [if_neg h]
      exact Or.inl (Nat.not_lt.mp h)

theorem dealerTurn_final (deck hand : List Card) :
    17 ≤ calculateScore (dealerTurn deck hand).2 ∨ (dealerTurn deck hand).1 = [] := by
  obtain h | h := dealerDrawLoop_final deck.reverse hand
  · exact Or.inl h
  · refine Or.inr ?_
    show (dealerDrawLoop deck.reverse hand).1.reverse = []
    rw [h]
    rfl

theorem findActiveIndexAux_eq_neg_one (stood : List Bool) (n : ℕ)
    (hands : List (List Card))
    (h : ∀ i, i < hands.length → stood.getD (n + i) false = true ∨
      21 < calculateScore (hands.getD i [])) :
    findActiveIndexAux stood n hands = -1 := by
  induction hands generalizing n with
  | nil => rfl
  | cons hd tl ih =>
    unfold findActiveIndexAux
    have h0 := h 0 (by simp)
    rw [if_neg (by
      rintro ⟨hstood, hsc⟩
      rcases h0 with h0 | h0
      · simp at h0
        exact hstood (by simpa using h0)
      · simp only [List.getD_cons_zero] at h0
        omega)]
    refine ih (n + 1) ?_
    intro i hi
    have := h (i + 1) (by simpa using Nat.succ_lt_succ hi)
    rw [show n + (i + 1) = n + 1 + i by omega] at this
    simpa using this

theorem settleHands_eq_sums (ds : ℕ) (hands : List (List Card)) (bets : List ℚ)
    (hlen : bets.length = hands.length) :
    settleHands ds hands bets =
      (((hands.zip bets).map (fun p => handPayout ds p.1 p.2)).sum,
       ((hands.zip bets).map (fun p => handOutcome ds p.1 p.2)).sum) := by
  induction hands generalizing bets with
  | nil => simp [settleHands]
  | cons hd tl ih =>
    cases bets with
    | nil => simp at hlen
    | cons b bs =>
      have hlen' : bs.length = tl.length := by simpa using hlen
      unfold settleHands
      simp only [List.headD, List.tail_cons, List.zip_cons_cons, List.map_cons,
        List.sum_cons]
      rw [ih bs hlen']
      unfold handPayout handOutcome
      split_ifs <;> simp [Prod.ext_iff, sub_eq_add_neg, add_comm]

/-- C2: for a blackjack session in which every hand is stood or busted
and at least one hand is not busted, the settlement runs the dealer turn
(drawing until the score is at least 17 or the deck is exhausted) and
then settles every hand independently: dealer bust or higher player
total pays 2× that hand's stake, equal totals return exactly the stake,
otherwise the stake is lost; the final status is PLAYER_WON, DEALER_WON
or PUSH by the sign of the aggregate net outcome. -/
theorem blackjack_settlement (s : GameSession)
    (hlen : s.playerState.bets.length = s.playerState.hands.length)
    (hclosed : ∀ i, i < s.playerState.hands.length →
      s.playerState.stood.getD i false = true ∨
        21 < calculateScore (s.playerState.hands.getD i []))
    (hsome : ∃ hand ∈ s.playerState.hands, calculateScore hand ≤ 21) :
    ∃ st : BJSettlement, (settleSessionIfNeeded s).2 = some st ∧
      (settleSessionIfNeeded s).1.dealerHand = (dealerTurn s.deck s.dealerHand).2 ∧
      (settleSessionIfNeeded s).1.deck = (dealerTurn s.deck s.dealerHand).1 ∧
      (17 ≤ calculateScore ((dealerTurn s.deck s.dealerHand).2) ∨
        (dealerTurn s.deck s.dealerHand).1 = []) ∧
      st.payout = ((s.playerState.hands.zip s.playerState.bets).map
        (fun p => handPayout (calculateScore ((dealerTurn s.deck s.dealerHand).2))
          p.1 p.2)).sum ∧
      st.outcome = ((s.playerState.hands.zip s.playerState.bets).map
        (fun p => handOutcome (calculateScore ((dealerTurn s.deck s.dealerHand).2))
          p.1 p.2)).sum ∧
      st.finalStatus = (if 0 < st.outcome then BJStatus.playerWon
        else if st.outcome < 0 then BJStatus.dealerWon else BJStatus.push) := by
  have hidx : findActiveIndex s.playerState.hands s.playerState.stood = -1 :=
    findActiveIndexAux_eq_neg_one _ 0 _ (by simpa using hclosed)
  have hstate : updateActiveHandIndex s.playerState =
      { s.playerState with activeHandIndex := -1 } := by
    simp [updateActiveHandIndex, hidx]
  have hbust : allPlayerHandsBusted
      { s.playerState with activeHandIndex := (-1 : ℤ) } = false := by
    obtain ⟨h, hmem, hsc⟩ := hsome
    simp only [allPlayerHandsBusted, List.all_eq_false, decide_eq_true_eq]
    exact ⟨h, hmem, Nat.not_lt.mpr hsc⟩
  set ds := calculateScore ((dealerTurn s.deck s.dealerHand).2) with hds
  set acc := settleHands ds s.playerState.hands s.playerState.bets with hacc
  have hmain : settleSessionIfNeeded s =
      ({ s with
          playerState := { s.playerState with activeHandIndex := -1 }
          deck := (dealerTurn s.deck s.dealerHand).1
          dealerHand := (dealerTurn s.deck s.dealerHand).2 },
        some ⟨acc.1, acc.2,
          if 0 < acc.2 then .playerWon else if acc.2 < 0 then .dealerWon else .push⟩) := by
    unfold settleSessionIfNeeded
    rw [hstate]
    rw [if_neg (by simp [allHandsClosed])]
    rw [if_neg (by simp [hbust])]
  refine ⟨⟨acc.1, acc.2,
    if 0 < acc.2 then .playerWon else if acc.2 < 0 then .dealerWon else .push⟩,
    by rw [hmain], by rw [hmain], by rw [hmain], dealerTurn_final s.deck s.dealerHand,
    ?_, ?_, rfl⟩
  · show acc.1 = _
    rw [hacc, settleHands_eq_sums ds _ _ hlen]
  · show acc.2 = _
    rw [hacc, settleHands_eq_sums ds _ _ hlen]

/-- C2 witness: the settlement at the concrete closed fixture (player 19
stands, dealer at 7 draws a king to 17, deck of one card). -/
theorem blackjack_settlement_witness :
    (bjClosedFixture.playerState.bets.length =
        bjClosedFixture.playerState.hands.length ∧
      (∀ i, i < bjClosedFixture.playerState.hands.length →
        bjClosedFixture.playerState.stood.getD i false = true ∨
          21 < calculateScore (bjClosedFixture.playerState.hands.getD i [])) ∧
      (∃ hand ∈ bjClosedFixture.playerState.hands, calculateScore hand ≤ 21)) ∧
    (∃ st : BJSettlement, (settleSessionIfNeeded bjClosedFixture).2 = some st ∧
      (settleSessionIfNeeded bjClosedFixture).1.dealerHand =
        (dealerTurn bjClosedFixture.deck bjClosedFixture.dealerHand).2 ∧
      (settleSessionIfNeeded bjClosedFixture).1.deck =
        (dealerTurn bjClosedFixture.deck bjClosedFixture.dealerHand).1 ∧
      (17 ≤ calculateScore
          ((dealerTurn bjClosedFixture.deck bjClosedFixture.dealerHand).2) ∨
        (dealerTurn bjClosedFixture.deck bjClosedFixture.dealerHand).1 = []) ∧
      st.payout = ((bjClosedFixture.playerState.hands.zip
          bjClosedFixture.playerState.bets).map
        (fun p => handPayout (calculateScore
          ((dealerTurn bjClosedFixture.deck bjClosedFixture.dealerHand).2))
          p.1 p.2)).sum ∧
      st.outcome = ((bjClosedFixture.playerState.hands.zip
          bjClosedFixture.playerState.bets).map
        (fun p => handOutcome (calculateScore
          ((dealerTurn bjClosedFixture.deck bjClosedFixture.dealerHand).2))
          p.1 p.2)).sum ∧
      st.finalStatus = (if 0 < st.outcome then BJStatus.playerWon
        else if st.outcome < 0 then BJStatus.dealerWon else BJStatus.push)) :=
  ⟨⟨rfl,
    by
      intro i hi
      simp only [bjClosedFixture, List.length_cons, List.length_nil] at hi
      obtain rfl : i = 0 := by omega
      exact Or.inl rfl,
    ⟨[cardKS, cardN9], by simp [bjClosedFixture], by decide⟩⟩,
    blackjack_settlement bjClosedFixture rfl
      (by
        intro i hi
        simp only [bjClosedFixture, List.length_cons, List.length_nil] at hi
        obtain rfl : i = 0 := by omega
        exact Or.inl rfl)
      ⟨[cardKS, cardN9], by simp [bjClosedFixture], by decide⟩⟩

theorem updateActiveHandIndex_hands (ps : PlayerState) :
    (updateActiveHandIndex ps).hands = ps.hands := rfl

theorem updateActiveHandIndex_bets (ps : PlayerState) :
    (updateActiveHandIndex ps).bets = ps.bets := rfl

theorem updateActiveHandIndex_actionsTaken (ps : PlayerState) :
    (updateActiveHandIndex ps).actionsTaken = ps.actionsTaken := rfl

theorem updateActiveHandIndex_splitAces (ps : PlayerState) :
    (updateActiveHandIndex ps).splitAces = ps.splitAces := rfl

theorem bjStateCorePreserved_refl (s : GameSession) : bjStateCorePreserved s s :=
  ⟨rfl, rfl, rfl, rfl, rfl, rfl, rfl, rfl, rfl, rfl, rfl⟩

theorem bjStateCorePreserved_indexUpdate (s : GameSession) :
    bjStateCorePreserved s { s with playerState := updateActiveHandIndex s.playerState } :=
  ⟨rfl, rfl, rfl, rfl, rfl, rfl, rfl, rfl, rfl, rfl, rfl⟩

/-- C4: a blackjack HIT/STAND/DOUBLE/SPLIT request on a non-ACTIVE
session, an out-of-rule DOUBLE (not the hand's first action, wrong card
count, after split aces) or SPLIT (split already used, non-matching
pair, prior action), or a DOUBLE/SPLIT with insufficient balance fails
with an error and leaves the session's hands, bets, stood/doubled flags,
actions, deck, status, outcome, bet amount and the player balance
exactly as they were before the call. -/
theorem blackjack_failed_action_preserves_state :
    ∀ (s : GameSession) (bal : ℚ),
      (∀ a : BJAction, s.status ≠ .active →
        failsPreservingState (applyActionOnSession s a bal) s bal ∧
        failsPreservingState (applySplitOnSession s bal) s bal) ∧
      (s.status = .active →
        ∀ idx : ℤ, (updateActiveHandIndex s.playerState).activeHandIndex = idx →
          0 ≤ idx →
          ∀ hand, s.playerState.hands.get? idx.toNat = some hand →
            (0 < s.playerState.actionsTaken.getD idx.toNat 0 ∨ hand.length ≠ 2 ∨
              s.playerState.splitAces = true ∨
              bal < s.playerState.bets.getD idx.toNat 0) →
            failsPreservingState (applyActionOnSession s .double bal) s bal) ∧
      (s.status = .active →
        ((updateActiveHandIndex s.playerState).activeHandIndex ≠ 0 ∨
          s.playerState.hands.length ≠ 1 ∨
          (∀ hand, s.playerState.hands.get? 0 = some hand →
            canSplitPair hand = false ∨ 0 < s.playerState.actionsTaken.getD 0 0 ∨
            bal < s.playerState.bets.getD 0 0)) →
        failsPreservingState (applySplitOnSession s bal) s bal) := by
  intro s bal
  refine ⟨?_, ?_, ?_⟩
  · intro a hterm
    constructor
    · unfold applyActionOnSession
      rw [if_pos hterm]
      exact ⟨.gameOver, s, rfl, bjStateCorePreserved_refl s⟩
    · unfold applySplitOnSession
      rw [if_pos hterm]
      exact ⟨.gameOver, s, rfl, bjStateCorePreserved_refl s⟩
  · intro hact idx hidx hge hand hhand hcond
    have hstatus : ¬ (s.status ≠ BJStatus.active) := by simp [hact]
    have hneg : ¬ (updateActiveHandIndex s.playerState).activeHandIndex < 0 := by
      rw [hidx]
      omega
    have hget : (updateActiveHandIndex s.playerState).hands.get?
        (updateActiveHandIndex s.playerState).activeHandIndex.toNat = some hand := by
      rw [updateActiveHandIndex_hands, hidx]
      exact hhand
    simp only [applyActionOnSession]
    rw [if_neg hstatus, if_neg hneg, hget]
    simp only [updateActiveHandIndex_actionsTaken, updateActiveHandIndex_splitAces,
      updateActiveHandIndex_bets, hidx]
    by_cases hill : 0 < s.playerState.actionsTaken.getD idx.toNat 0 ∨
        hand.length ≠ 2 ∨ s.playerState.splitAces = true
    · rw [if_pos hill]
      exact ⟨.doubleForbidden, _, rfl, bjStateCorePreserved_indexUpdate s⟩
    · have hb : bal < s.playerState.bets.getD idx.toNat 0 := by
        rcases hcond with h | h | h | h
        · exact absurd (Or.inl h) hill
        · exact absurd (Or.inr (Or.inl h)) hill
        · exact absurd (Or.inr (Or.inr h)) hill
        · exact h
      rw [if_neg hill, if_pos hb]
      exact ⟨.insufficientBalance, _, rfl, bjStateCorePreserved_indexUpdate s⟩
  · intro hact hcond
    have hstatus : ¬ (s.status ≠ BJStatus.active) := by simp [hact]
    simp only [applySplitOnSession]
    rw [if_neg hstatus]
    simp only [updateActiveHandIndex_hands, updateActiveHandIndex_actionsTaken,
      updateActiveHandIndex_bets]
    by_cases hun : (updateActiveHandIndex s.playerState).activeHandIndex ≠ 0 ∨
        s.playerState.hands.length ≠ 1
    · rw [if_pos hun]
      exact ⟨.splitUnavailable, _, rfl, bjStateCorePreserved_indexUpdate s⟩
    · rw [if_neg hun]
      push_neg at hun
      obtain ⟨hz, hone⟩ := hun
      have hhand : ∀ h, s.playerState.hands.get? 0 = some h →
          canSplitPair h = false ∨ 0 < s.playerState.actionsTaken.getD 0 0 ∨
          bal < s.playerState.bets.getD 0 0 := by
        rcases hcond with h | h | h
        · exact absurd h (by simp [hz])
        · exact absurd h (by simp [hone])
        · exact h
      rw [hz]
      simp only [Int.toNat_zero]
      cases hg : s.playerState.hands.get? 0 with
      | none =>
        simp only []
        exact ⟨.splitNotAllowed, _, rfl, bjStateCorePreserved_indexUpdate s⟩
      | some h =>
        simp only []
        rcases hhand h hg with hc | hc | hc
        · rw [if_pos (Or.inl (by simp [hc]))]
          exact ⟨.splitNotAllowed, _, rfl, bjStateCorePreserved_indexUpdate s⟩
        · rw [if_pos (Or.inr hc)]
          exact ⟨.splitNotAllowed, _, rfl, bjStateCorePreserved_indexUpdate s⟩
        · by_cases hfirst : ¬ canSplitPair h = true ∨
              0 < s.playerState.actionsTaken.getD 0 0
          · rw [if_pos hfirst]
            exact ⟨.splitNotAllowed, _, rfl, bjStateCorePreserved_indexUpdate s⟩
          · rw [if_neg hfirst, if_pos hc]
            exact ⟨.insufficientBalance, _, rfl, bjStateCorePreserved_indexUpdate s⟩

/-- C4 witness: the atomicity theorem at concrete inputs — a STAND on a
finished session, and an out-of-rule DOUBLE and SPLIT on an ACTIVE
session whose single three-card hand already took an action. -/
theorem blackjack_failed_action_preserves_state_witness :
    (bjDoneFixture.status ≠ .active ∧
      bjThreeCardFixture.status = .active ∧
      (updateActiveHandIndex bjThreeCardFixture.playerState).activeHandIndex = 0 ∧
      bjThreeCardFixture.playerState.hands.get? (Int.toNat 0) =
        some [cardN5, cardN7, cardN5] ∧
      0 < bjThreeCardFixture.playerState.actionsTaken.getD (Int.toNat 0) 0) ∧
    failsPreservingState (applyActionOnSession bjDoneFixture .stand 500)
      bjDoneFixture 500 ∧
    failsPreservingState (applyActionOnSession bjThreeCardFixture .double 500)
      bjThreeCardFixture 500 ∧
    failsPreservingState (applySplitOnSession bjThreeCardFixture 500)
      bjThreeCardFixture 500 :=
  ⟨⟨by decide, rfl, by decide, by decide, by decide⟩,
    ((blackjack_failed_action_preserves_state bjDoneFixture 500).1 .stand
      (by decide)).1,
    (blackjack_failed_action_preserves_state bjThreeCardFixture 500).2.1 rfl 0
      (by decide) (by decide) [cardN5, cardN7, cardN5] (by decide)
      (Or.inl (by decide)),
    (blackjack_failed_action_preserves_state bjThreeCardFixture 500).2.2 rfl
      (Or.inr (Or.inr (fun hand _ => Or.inr (Or.inl (by decide)))))⟩
